import Mathlib

/-!
Shallow embedding of the continuous-recognition-task analysis pipeline:
the sequence validator and trial-table builder of `scripts/02_to_bids.py`,
and the participant scorer / signal-detection aggregation engine of
`scripts/03_calculate_metrics.py`.

Conventions of the embedding:
* numpy/pandas sequences become `List`s; slices `[::2]` and `[1::2]` become
  `everyOther` / `everyOtherOdd`;
* float quantities become `ℚ`; the float NaN produced by an unguarded `0/0`
  is modelled by `Option ℚ` with `none` playing the role of NaN (comparisons
  against NaN are false, mirrored by `nanGe none t = false`);
* a raised Python exception becomes an `Except`/`Option` failure or an
  explicit error status;
* the `defaultdict` of per-image counters becomes an association list in
  insertion order with a default-zero lookup (`getIm`/`setIm`).
-/

/-- The numpy slice `l[::2]` (elements at even indices). -/
def everyOther {α : Type} : List α → List α
  | [] => []
  | [a] => [a]
  | a :: _ :: rest => a :: everyOther rest

/-- The numpy slice `l[1::2]` (elements at odd indices). -/
def everyOtherOdd {α : Type} : List α → List α
  | [] => []
  | [_] => []
  | _ :: b :: rest => b :: everyOtherOdd rest

/-! ### Constants of `02_to_bids.py` -/

def FIXATION : String := "0"
def TARGET : String := "1"
def REPEAT : String := "2"
def FILLER : String := "3"
def VIGILANCE : String := "4"

/-- The `IMTYPE_DICT` conversion dictionary; `none` models a `KeyError`. -/
def IMTYPE_DICT (x : String) : Option String :=
  if x == "0" then some "FIXATION"
  else if x == "1" then some "TARGET"
  else if x == "2" then some "REPEAT"
  else if x == "3" then some "FILLER"
  else if x == "4" then some "VIGILANCE"
  else none

/-- Inverse of `IMTYPE_DICT`, used to re-derive the raw type codes from a
built trial table. -/
def IMTYPE_INV (n : String) : Option String :=
  if n == "FIXATION" then some "0"
  else if n == "TARGET" then some "1"
  else if n == "REPEAT" then some "2"
  else if n == "FILLER" then some "3"
  else if n == "VIGILANCE" then some "4"
  else none

/-- The `ATTN_CONFIG` dictionary: every key is optional (`none` = the key is
absent, so the corresponding check in `validate_data` is skipped). -/
structure AttnConfig where
  target_num : Option Nat
  filler_num : Option Nat
  vigilance_num : Option Nat
  min_repeat_interval : Option ℚ
  max_repeat_interval : Option ℚ
  min_vigilance_interval : Option ℚ
  max_vigilance_interval : Option ℚ
  fixation_img_name : Option String
deriving DecidableEq

/-- The shipped `ATTN_CONFIG` with every key commented out. -/
def emptyAttnConfig : AttnConfig :=
  ⟨none, none, none, none, none, none, none, none⟩

/-! ### `validate_data` of `02_to_bids.py` -/

/-- The numpy boolean mask `l[mask == t]`: the elements of `l` whose parallel
entry in `mask` equals `t`. -/
def maskFilter : List String → List String → String → List String
  | [], _, _ => []
  | _ :: _, [], _ => []
  | a :: l, m :: ms, t =>
    if m == t then a :: maskFilter l ms t else maskFilter l ms t

/-- `len(set(a).intersection(set(b)))`. -/
def setInterCard (a b : List String) : Nat :=
  ((a.dedup).filter (fun x => b.contains x)).length

/-- `np.where(imseq == x)[0]`: the (ascending) indices at which `x` occurs. -/
def occIdx (imseq : List String) (x : String) : List Nat :=
  (imseq.enum.filter (fun p => p.2 == x)).map (fun p => p.1)

/-- `(np.where(imseq == x)[0][1] - np.where(imseq == x)[0][0]) / 2`: the gap
between the two occurrence indices of `x`, halved (true float division).
Only meaningful when `x` occurs exactly twice, which `validate_data` checks
immediately before using it. -/
def gapHalf (imseq : List String) (x : String) : ℚ :=
  match occIdx imseq x with
  | [a, b] => ((b : ℚ) - (a : ℚ)) / 2
  | _ => 0

/-- The per-trial checks run when `imtypeseq[i] == REPEAT`
(`02_to_bids.py` lines 67-77). -/
def repeatTrialOK (imseq imtypeseq : List String) (cfg : AttnConfig) (i : Nat) : Bool :=
  let im := imseq.getD i ""
  decide (im ∈ maskFilter (imseq.take i) (imtypeseq.take i) TARGET) &&
  (imseq.count im == 2) &&
  (match cfg.min_repeat_interval with
   | none => true
   | some mn => decide (mn < gapHalf imseq im)) &&
  (match cfg.max_repeat_interval with
   | none => true
   | some mx => decide (gapHalf imseq im ≤ mx))

/-- The per-trial checks run when `imtypeseq[i] == VIGILANCE`
(`02_to_bids.py` lines 78-87).  Note the min bound is inclusive (`>=`),
unlike the strict `>` of the repeat path. -/
def vigilanceTrialOK (imseq imtypeseq : List String) (cfg : AttnConfig) (i : Nat) : Bool :=
  let im := imseq.getD i ""
  decide (im ∈ maskFilter (imseq.take i) (imtypeseq.take i) FILLER) &&
  (imseq.count im == 2) &&
  (match cfg.min_vigilance_interval with
   | none => true
   | some mn => decide (mn ≤ gapHalf imseq im)) &&
  (match cfg.max_vigilance_interval with
   | none => true
   | some mx => decide (gapHalf imseq im ≤ mx))

/-- The `for i in range(len(imseq))` loop of `validate_data`. -/
def perTrialOK (imseq imtypeseq : List String) (cfg : AttnConfig) : Bool :=
  (List.range imseq.length).all (fun i =>
    if imtypeseq.getD i "" == REPEAT then repeatTrialOK imseq imtypeseq cfg i
    else if imtypeseq.getD i "" == VIGILANCE then vigilanceTrialOK imseq imtypeseq cfg i
    else true)

/-- Fixation placement checks (`02_to_bids.py` lines 89-93). -/
def fixationOK (imseq imtypeseq : List String) (cfg : AttnConfig) : Bool :=
  (everyOtherOdd imtypeseq).all (fun t => t == FIXATION) &&
  (match cfg.fixation_img_name with
   | none => true
   | some f => (everyOtherOdd imseq).all (fun x => x == f))

/-- `validate_data` of `02_to_bids.py` as a boolean: `true` iff no assert
fires. -/
def validate_data (imseq imtypeseq keyPressSequence RTSequence : List String)
    (cfg : AttnConfig) : Bool :=
  (imseq.length == imtypeseq.length) &&
  (imtypeseq.length == keyPressSequence.length) &&
  (keyPressSequence.length == RTSequence.length) &&
  (match cfg.target_num with
   | none => true
   | some n => (imtypeseq.count TARGET == n) && (imtypeseq.count REPEAT == n)) &&
  (match cfg.filler_num with
   | none => true
   | some n => imtypeseq.count FILLER == n) &&
  (match cfg.vigilance_num with
   | none => true
   | some n => imtypeseq.count VIGILANCE == n) &&
  (match cfg.target_num, cfg.filler_num, cfg.vigilance_num with
   | some t, some f, some v => imseq.length == (t * 2 + f + v) * 2
   | _, _, _ => true) &&
  (setInterCard (maskFilter imseq imtypeseq TARGET) (maskFilter imseq imtypeseq FILLER) == 0) &&
  (setInterCard (maskFilter imseq imtypeseq TARGET) (maskFilter imseq imtypeseq REPEAT)
    == (maskFilter imseq imtypeseq REPEAT).length) &&
  (setInterCard (maskFilter imseq imtypeseq FILLER) (maskFilter imseq imtypeseq VIGILANCE)
    == (maskFilter imseq imtypeseq VIGILANCE).length) &&
  perTrialOK imseq imtypeseq cfg &&
  fixationOK imseq imtypeseq cfg

/-! ### `build_trial_df` of `02_to_bids.py` -/

/-- One row of the canonical per-trial table. -/
structure CanonicalTrial where
  onset : ℚ
  duration : ℚ
  trial_type : String
  response : Option String
  response_time : Option String
  stim_file : String
deriving DecidableEq

/-- `None if not s else s`: the empty string is the only falsy raw value. -/
def strOpt (s : String) : Option String :=
  if s == "" then none else some s

/-- The onset/duration loop of `build_trial_df`: onset starts at the given
accumulator, each trial records the current onset and advances it by `isi`
for fixations and by `stim_time` otherwise. -/
def onsetsDurations (imtypeseq : List String) (stim_time isi onset : ℚ) : List (ℚ × ℚ) :=
  match imtypeseq with
  | [] => []
  | t :: rest =>
    if t == FIXATION then (onset, isi) :: onsetsDurations rest stim_time isi (onset + isi)
    else (onset, stim_time) :: onsetsDurations rest stim_time isi (onset + stim_time)

/-- `[IMTYPE_DICT[x] for x in l]`; `none` models the `KeyError` raised on an
unknown code. -/
def mapOpt (f : String → Option String) : List String → Option (List String)
  | [] => some []
  | x :: xs =>
    match f x, mapOpt f xs with
    | some y, some ys => some (y :: ys)
    | _, _ => none

/-- Zip the five per-trial columns into table rows. -/
def assembleRows : List (ℚ × ℚ) → List String → List String → List String → List String →
    List CanonicalTrial
  | od :: ods, n :: ns, k :: ks, r :: rs, im :: ims =>
    ⟨od.1, od.2, n, strOpt k, strOpt r, im⟩ :: assembleRows ods ns ks rs ims
  | _, _, _, _, _ => []

/-- `build_trial_df` of `02_to_bids.py`; `none` models a raised exception
(unknown type code, or unequal column lengths rejected by `pd.DataFrame`). -/
def build_trial_df (imseq imtypeseq keyPressSequence RTSequence : List String)
    (stim_time isi : ℚ) : Option (List CanonicalTrial) :=
  match mapOpt IMTYPE_DICT imtypeseq with
  | none => none
  | some names =>
    if (imseq.length == imtypeseq.length) &&
       (keyPressSequence.length == imtypeseq.length) &&
       (RTSequence.length == imtypeseq.length) then
      some (assembleRows (onsetsDurations imtypeseq stim_time isi 0)
        names keyPressSequence RTSequence imseq)
    else none

/-! ### The cohort loop of `02_to_bids.py` `main` -/

/-- One raw participant record (the four comma-split columns of one row). -/
structure RawRecord where
  imseq : List String
  imtypeseq : List String
  keyPressSequence : List String
  RTSequence : List String
deriving DecidableEq

/-- The per-participant loop of `02_to_bids.py` `main`, starting at row
index `idx`.  There is no try/except around `validate_data` or
`build_trial_df`: the first raised exception aborts the whole run, modelled
by `Except.error` carrying the offending row index. -/
def bidsMainAux (cfg : AttnConfig) (stim_time isi : ℚ) (idx : Nat) :
    List RawRecord → Except Nat (List (List CanonicalTrial))
  | [] => .ok []
  | r :: rest =>
    if validate_data r.imseq r.imtypeseq r.keyPressSequence r.RTSequence cfg then
      match build_trial_df r.imseq r.imtypeseq r.keyPressSequence r.RTSequence stim_time isi with
      | some tbl => (bidsMainAux cfg stim_time isi (idx + 1) rest).map (fun ts => tbl :: ts)
      | none => .error idx
    else .error idx

/-- The cohort loop of `02_to_bids.py` `main` over the filtered rows. -/
def bidsMain (cfg : AttnConfig) (stim_time isi : ℚ) (records : List RawRecord) :
    Except Nat (List (List CanonicalTrial)) :=
  bidsMainAux cfg stim_time isi 0 records

/-! ### `03_calculate_metrics.py`: data model -/

/-- The columns of a persisted trial table that `process_crt` reads.
`response = none` models the `n/a` cell read back as NaN. -/
structure TrialRow where
  trial_type : String
  response : Option String
  stim_file : String
deriving DecidableEq

/-- Project a built canonical trial onto the columns the scorer uses. -/
def toTrialRow (c : CanonicalTrial) : TrialRow :=
  ⟨c.trial_type, c.response, c.stim_file⟩

def VALID_RESPONSE : List String := ["R", "r", "82", "114"]

/-- The ten per-image counters of `initialize_image_level_results`. -/
structure ImCounters where
  target_hit : Nat
  target_miss : Nat
  target_fa : Nat
  target_cr : Nat
  filler_hit : Nat
  filler_miss : Nat
  filler_fa : Nat
  filler_cr : Nat
  n_participants_target : Nat
  n_participants_filler : Nat
deriving DecidableEq

/-- The default-zero counter block of the `defaultdict`. -/
def initCounters : ImCounters := ⟨0, 0, 0, 0, 0, 0, 0, 0, 0, 0⟩

/-- The shared `defaultdict` of per-image counters, as an association list
in insertion order. -/
abbrev ImageMap := List (String × ImCounters)

/-- `image_level_results[im]` as a read: the stored block, or the default
zero block for an image not yet present. -/
def getIm : ImageMap → String → ImCounters
  | [], _ => initCounters
  | (k, v) :: rest, im => if k == im then v else getIm rest im

/-- Store a counter block under `im`: replace the existing entry in place,
or append a fresh entry (the `defaultdict` materialising a new key). -/
def setIm : ImageMap → String → ImCounters → ImageMap
  | [], im, c => [(im, c)]
  | (k, v) :: rest, im, c =>
    if k == im then (im, c) :: rest else (k, v) :: setIm rest im c

/-- The statuses `process_crt` can produce; `err` stands for a raised
exception (caught per participant in `main`). -/
inductive CrtStatus where
  | valid
  | fail_filler_far
  | fail_vigilance_miss
  | err
deriving DecidableEq

/-- The four trial types `update_crt_image_level_results` recognises. -/
def knownImTypes : List String := ["TARGET", "REPEAT", "FILLER", "VIGILANCE"]

/-- The counter increments one classified trial performs on its image's
block (`03_calculate_metrics.py` lines 140-171). -/
def bump (c : ImCounters) (imtype : String) (keypress : Bool) : ImCounters :=
  if imtype == "TARGET" then
    let c := { c with n_participants_target := c.n_participants_target + 1 }
    if keypress then { c with target_fa := c.target_fa + 1 }
    else { c with target_cr := c.target_cr + 1 }
  else if imtype == "REPEAT" then
    if keypress then { c with target_hit := c.target_hit + 1 }
    else { c with target_miss := c.target_miss + 1 }
  else if imtype == "FILLER" then
    let c := { c with n_participants_filler := c.n_participants_filler + 1 }
    if keypress then { c with filler_fa := c.filler_fa + 1 }
    else { c with filler_cr := c.filler_cr + 1 }
  else if imtype == "VIGILANCE" then
    if keypress then { c with filler_hit := c.filler_hit + 1 }
    else { c with filler_miss := c.filler_miss + 1 }
  else c

/-- One iteration of the classification loop; the `else` branch raises
`ValueError('Unknown trial type')`. -/
def updateOne (res : ImageMap) (im : String) (imtype : String) (keypress : Bool) :
    Except String ImageMap :=
  if imtype ∈ knownImTypes then
    .ok (setIm res im (bump (getIm res im) imtype keypress))
  else
    .error "Unknown trial type"

/-- `update_crt_image_level_results`: fold the classification over the
zipped trials.  A raised `ValueError` stops the loop with the mutations made
so far kept (the dict is mutated in place), signalled by the `false` flag. -/
def update_crt_image_level_results :
    ImageMap → List (String × String × Bool) → ImageMap × Bool
  | res, [] => (res, true)
  | res, (im, t, k) :: rest =>
    match updateOne res im t k with
    | .ok res2 => update_crt_image_level_results res2 rest
    | .error _ => (res, false)

/-! ### `process_crt` -/

/-- The configuration surface of `process_crt` (keyword arguments). -/
structure CrtConfig where
  valid_response : List String
  consolidate_fixation : Bool
  far_threshold : ℚ
  vigilance_miss_threshold : ℚ
  update_image_level_results : Bool
deriving DecidableEq

/-- The defaults of `process_crt` with `VALID_RESPONSE`, as used by `main`. -/
def defaultCrtConfig : CrtConfig :=
  ⟨VALID_RESPONSE, true, 7/10, 7/10, true⟩

/-- `resp in valid_response` for one response cell (NaN is in no list). -/
def respValid (valid : List String) (o : Option String) : Bool :=
  match o with
  | none => false
  | some s => valid.contains s

/-- `keypressseq_raw`: validity of the response of every row. -/
def rawPresses (valid : List String) (df : List TrialRow) : List Bool :=
  df.map (fun row => respValid valid row.response)

/-- `keypressseq`: on-image presses, OR'd with the following fixation's
press when `consolidate_fixation` is set. -/
def crtKeypress (cfg : CrtConfig) (df : List TrialRow) : List Bool :=
  let raw := rawPresses cfg.valid_response df
  if cfg.consolidate_fixation then List.zipWith or (everyOther raw) (everyOtherOdd raw)
  else everyOther raw

/-- `imseq = df['stim_file'].values[::2]`. -/
def crtImseq (df : List TrialRow) : List String :=
  everyOther (df.map (fun r => r.stim_file))

/-- `imtypeseq = df['trial_type'].values[::2]`. -/
def crtImtypeseq (df : List TrialRow) : List String :=
  everyOther (df.map (fun r => r.trial_type))

/-- The zipped `(image, type, keypress)` stream fed to the classification. -/
def crtTrials (cfg : CrtConfig) (df : List TrialRow) : List (String × String × Bool) :=
  (crtImseq df).zip ((crtImtypeseq df).zip (crtKeypress cfg df))

/-- Count the positions where the type mask matches `t` and the keypress
equals `want` (the numpy masked sums of the two exclusion rates). -/
def maskCount (types : List String) (presses : List Bool) (t : String) (want : Bool) : Nat :=
  ((types.zip presses).filter (fun p => p.1 == t && p.2 == want)).length

/-- Float division `num / den` of two counts: `none` models the NaN of the
unguarded `0 / 0`. -/
def rateOrNaN (num den : Nat) : Option ℚ :=
  if den == 0 then none else some ((num : ℚ) / (den : ℚ))

/-- `filler_false_alarm` of `process_crt`. -/
def filler_false_alarm (cfg : CrtConfig) (df : List TrialRow) : Option ℚ :=
  rateOrNaN (maskCount (crtImtypeseq df) (crtKeypress cfg df) "FILLER" true)
    ((crtImtypeseq df).count "FILLER")

/-- `vigilance_miss_rate` of `process_crt`. -/
def vigilance_miss_rate (cfg : CrtConfig) (df : List TrialRow) : Option ℚ :=
  rateOrNaN (maskCount (crtImtypeseq df) (crtKeypress cfg df) "VIGILANCE" false)
    ((crtImtypeseq df).count "VIGILANCE")

/-- `rate >= threshold` under IEEE semantics: any comparison against NaN is
false. -/
def nanGe (o : Option ℚ) (t : ℚ) : Bool :=
  match o with
  | none => false
  | some q => decide (t ≤ q)

/-- The `assert df['trial_type'][1::2].eq('FIXATION').all()` precondition. -/
def alternationOK (df : List TrialRow) : Bool :=
  (everyOtherOdd (df.map (fun r => r.trial_type))).all (fun t => t == "FIXATION")

/-- `process_crt`: quality gates then classification.  The first `err`
branch is the alternation assert; the second is the numpy broadcast error
raised by OR-ing even/odd press slices of unequal length. -/
def process_crt (cfg : CrtConfig) (df : List TrialRow) (res : ImageMap) :
    ImageMap × CrtStatus :=
  if alternationOK df then
    if cfg.consolidate_fixation &&
       ((everyOther (rawPresses cfg.valid_response df)).length
         != (everyOtherOdd (rawPresses cfg.valid_response df)).length) then
      (res, .err)
    else if nanGe (filler_false_alarm cfg df) cfg.far_threshold then
      (res, .fail_filler_far)
    else if nanGe (vigilance_miss_rate cfg df) cfg.vigilance_miss_threshold then
      (res, .fail_vigilance_miss)
    else if cfg.update_image_level_results then
      match update_crt_image_level_results res (crtTrials cfg df) with
      | (res2, true) => (res2, .valid)
      | (res2, false) => (res2, .err)
    else (res, .valid)
  else (res, .err)

/-! ### `convert_crt_image_level_results_to_df` and the cohort loop -/

/-- One output row, in the emitted column order. -/
structure MetricsRow where
  image_name : String
  n_participants_target : Nat
  target_crr : Option ℚ
  target_hr : Option ℚ
  target_far : Option ℚ
  target_hit : Nat
  target_miss : Nat
  target_fa : Nat
  target_cr : Nat
  n_participants_filler : Nat
  filler_hit : Nat
  filler_miss : Nat
  filler_fa : Nat
  filler_cr : Nat
deriving DecidableEq

/-- NaN-propagating subtraction on rate cells. -/
def optSub : Option ℚ → Option ℚ → Option ℚ
  | some a, some b => some (a - b)
  | _, _ => none

/-- Build one output row from one image's counters, including the three
derived rates (with `none` as the undefined marker for `0 / 0`). -/
def mkMetricsRow (p : String × ImCounters) : MetricsRow :=
  let c := p.2
  let hr := rateOrNaN c.target_hit (c.target_hit + c.target_miss)
  let far := rateOrNaN c.target_fa (c.target_fa + c.target_cr)
  ⟨p.1, c.n_participants_target, optSub hr far, hr, far,
   c.target_hit, c.target_miss, c.target_fa, c.target_cr,
   c.n_participants_filler, c.filler_hit, c.filler_miss, c.filler_fa, c.filler_cr⟩

/-- The three per-image consistency identities asserted before emitting. -/
def trialConsistent (c : ImCounters) : Bool :=
  (c.n_participants_target == c.target_cr + c.target_fa) &&
  (c.n_participants_target == c.target_hit + c.target_miss) &&
  (c.n_participants_filler == c.filler_cr + c.filler_fa)

/-- Code-point lexicographic comparison of character lists (the string
order Python and pandas use to sort `image_name`). -/
def charListLe : List Char → List Char → Bool
  | [], _ => true
  | _ :: _, [] => false
  | a :: as, b :: bs =>
    if a.toNat < b.toNat then true
    else if b.toNat < a.toNat then false
    else charListLe as bs

/-- `a <= b` on strings, by code points. -/
def strLe (a b : String) : Bool := charListLe a.data b.data

/-- `df.sort_values('image_name')`. -/
def sortByImage (res : ImageMap) : ImageMap :=
  List.insertionSort (fun a b => strLe a.1 b.1 = true) res

/-- The three `.all()` assertions of
`convert_crt_image_level_results_to_df`. -/
def checkAsserts (res : ImageMap) : Bool :=
  res.all (fun p => trialConsistent p.2)

/-- `convert_crt_image_level_results_to_df`: sort by image name, run the
consistency assertions (`none` models the raised `AssertionError`), then
derive the per-image metric rows. -/
def convert_crt_image_level_results_to_df (res : ImageMap) : Option (List MetricsRow) :=
  let sorted := sortByImage res
  if checkAsserts sorted then some (sorted.map mkMetricsRow) else none

/-- The counter-accumulating cohort loop of `03_calculate_metrics.py`
`main`: the shared map is threaded through every participant, and kept even
when a participant's processing raises (the in-place mutations survive the
`except` clause). -/
def metricsFold (cfg : CrtConfig) (tables : List (List TrialRow)) : ImageMap :=
  tables.foldl (fun res tb => (process_crt cfg tb res).1) []

/-- The cohort loop together with the status recorded for every
participant (each participant yields exactly one status; exceptions are
caught and logged, never aborting the loop). -/
def metricsMain (cfg : CrtConfig) (tables : List (List TrialRow)) :
    ImageMap × List CrtStatus :=
  tables.foldl (fun acc tb =>
    let r := process_crt cfg tb acc.1
    (r.1, acc.2 ++ [r.2])) ([], [])

/-! ### Helper predicates used by the aggregation-invariant analysis -/

/-- Keys of the association map are pairwise distinct (holds for every map
the pipeline builds, since `setIm` never duplicates a key). -/
def KeysNodup (res : ImageMap) : Prop :=
  (res.map Prod.fst).Nodup

/-- Number of classified trials of the stream that present image `im` with
type `t`. -/
def countTrialsOf (trials : List (String × String × Bool)) (im t : String) : Nat :=
  (trials.filter (fun p => p.1 == im && p.2.1 == t)).length

/-- Every classified trial carries one of the four known types. -/
def allKnownTrials (trials : List (String × String × Bool)) : Bool :=
  trials.all (fun p => decide (p.2.1 ∈ knownImTypes))

/-- Within the stream, every image occurs as `TARGET` exactly as often as
it occurs as `REPEAT`. -/
def balancedTrials (trials : List (String × String × Bool)) : Bool :=
  trials.all (fun p =>
    countTrialsOf trials p.1 "TARGET" == countTrialsOf trials p.1 "REPEAT")

/-! ### Concrete instances used by witnesses and counterexamples -/

/-- A full validation configuration for a six-trial sequence with one
target/repeat pair and one filler. -/
def cfgSix : AttnConfig :=
  ⟨some 1, some 1, some 0, some 1, some 2, some 1, some 7, some "f"⟩

/-- Image sequence `A f B f A f` (fixations interleaved). -/
def imseqSix : List String := ["A", "f", "B", "f", "A", "f"]

/-- Type codes: target, fixation, filler, fixation, repeat, fixation. -/
def typesSix : List String := ["1", "0", "3", "0", "2", "0"]

/-- Answered-nothing keypress / RT columns for the six-trial sequence. -/
def blankSix : List String := ["", "", "", "", "", ""]

/-- Participant table where the only keypress falls on the fixation that
follows the `REPEAT` presentation of image `A`. -/
def lateRepeatTable : List TrialRow :=
  [⟨"TARGET", none, "A"⟩, ⟨"FIXATION", none, "fix"⟩,
   ⟨"REPEAT", none, "A"⟩, ⟨"FIXATION", some "R", "fix"⟩]

/-- One filler presentation (with or without a press) and its fixation. -/
def fillerPair (press : Bool) : List TrialRow :=
  [⟨"FILLER", if press then some "R" else none, "f1"⟩, ⟨"FIXATION", none, "fix"⟩]

/-- Ten filler trials of which seven carry a press: false-alarm rate
exactly `0.7`. -/
def tblBoundaryFar : List TrialRow :=
  (List.replicate 7 (fillerPair true)).flatten ++ (List.replicate 3 (fillerPair false)).flatten

/-- One hundred filler trials of which sixty-nine carry a press:
false-alarm rate exactly `0.69`. -/
def tblBelowFar : List TrialRow :=
  (List.replicate 69 (fillerPair true)).flatten ++ (List.replicate 31 (fillerPair false)).flatten

/-- A participant who sees a single `TARGET` that is never repeated; the
sequence passes every structural invariant of `validate_data`. -/
def loneTargetTable : List TrialRow :=
  [⟨"TARGET", none, "A"⟩, ⟨"FIXATION", none, "fix"⟩]

/-- A participant with one balanced target/repeat pair for image `A`. -/
def pairedTargetTable : List TrialRow :=
  [⟨"TARGET", none, "A"⟩, ⟨"FIXATION", none, "fix"⟩,
   ⟨"REPEAT", some "R", "A"⟩, ⟨"FIXATION", none, "fix"⟩]

/-- A raw record whose sequence violates the repeat-follows-target
invariant (a `REPEAT` with no prior `TARGET`). -/
def badRecord : RawRecord := ⟨["A"], ["2"], [""], [""]⟩

/-- A raw record that satisfies every mandatory invariant. -/
def goodRecord : RawRecord := ⟨["A", "fix"], ["1", "0"], ["", ""], ["", ""]⟩

/-! ### Supporting lemmas: slicing -/

set_option maxRecDepth 4000

theorem everyOther_get? {α : Type} (l : List α) (i : Nat) :
    (everyOther l).get? i = l.get? (2 * i) := by
  induction l using everyOther.induct generalizing i with
  | case1 => rfl
  | case2 a =>
    cases i with
    | zero => rfl
    | succ j => simp [everyOther, List.get?, Nat.mul_succ]
  | case3 a b rest ih =>
    cases i with
    | zero => rfl
    | succ j =>
      have h2 : 2 * (j + 1) = 2 * j + 1 + 1 := by ring
      simp only [everyOther, h2, List.get?]
      exact ih j

theorem everyOtherOdd_get? {α : Type} (l : List α) (i : Nat) :
    (everyOtherOdd l).get? i = l.get? (2 * i + 1) := by
  induction l using everyOtherOdd.induct generalizing i with
  | case1 => rfl
  | case2 a =>
    cases i with
    | zero => rfl
    | succ j => simp [everyOtherOdd, List.get?, Nat.mul_succ]
  | case3 a b rest ih =>
    cases i with
    | zero => rfl
    | succ j =>
      have h2 : 2 * (j + 1) + 1 = 2 * j + 1 + 1 + 1 := by ring
      simp only [everyOtherOdd, h2, List.get?]
      exact ih j

/-! ### Supporting lemmas: the per-image counter map -/

theorem getIm_setIm_self (res : ImageMap) (im : String) (c : ImCounters) :
    getIm (setIm res im c) im = c := by
  induction res with
  | nil => simp [setIm, getIm]
  | cons p rest ih =>
    obtain ⟨k, v⟩ := p
    by_cases h : k = im
    · subst h
      simp [setIm, getIm]
    · have hb : (k == im) = false := beq_eq_false_iff_ne.mpr h
      simp [setIm, hb, getIm, ih]

theorem getIm_setIm_ne (res : ImageMap) (im im2 : String) (c : ImCounters)
    (h : im2 ≠ im) : getIm (setIm res im c) im2 = getIm res im2 := by
  have him : (im == im2) = false := beq_eq_false_iff_ne.mpr (Ne.symm h)
  induction res with
  | nil => simp [setIm, getIm, him]
  | cons p rest ih =>
    obtain ⟨k, v⟩ := p
    by_cases hk : k = im
    · subst hk
      simp [setIm, getIm, him]
    · have hb : (k == im) = false := beq_eq_false_iff_ne.mpr hk
      by_cases hk2 : k = im2
      · subst hk2
        simp [setIm, hb, getIm]
      · have hb2 : (k == im2) = false := beq_eq_false_iff_ne.mpr hk2
        simp [setIm, hb, getIm, hb2, ih]

theorem mem_keys_setIm (res : ImageMap) (im : String) (c : ImCounters) (x : String) :
    x ∈ (setIm res im c).map Prod.fst ↔ x = im ∨ x ∈ res.map Prod.fst := by
  induction res with
  | nil => simp [setIm]
  | cons p rest ih =>
    obtain ⟨k, v⟩ := p
    by_cases hk : k = im
    · subst hk
      simp [setIm]
    · have hb : (k == im) = false := beq_eq_false_iff_ne.mpr hk
      simp only [setIm, hb, Bool.false_eq_true, if_false, List.map_cons, List.mem_cons, ih]
      tauto

theorem keysNodup_setIm (res : ImageMap) (im : String) (c : ImCounters)
    (h : KeysNodup res) : KeysNodup (setIm res im c) := by
  induction res with
  | nil => simp [setIm, KeysNodup]
  | cons p rest ih =>
    obtain ⟨k, v⟩ := p
    rw [KeysNodup, List.map_cons, List.nodup_cons] at h
    by_cases hk : k = im
    · subst hk
      simp only [setIm, beq_self_eq_true, if_true]
      rw [KeysNodup, List.map_cons, List.nodup_cons]
      exact h
    · have hb : (k == im) = false := beq_eq_false_iff_ne.mpr hk
      simp only [setIm, hb, Bool.false_eq_true, if_false]
      rw [KeysNodup, List.map_cons, List.nodup_cons]
      refine ⟨?_, ih h.2⟩
      rw [mem_keys_setIm]
      rintro (rfl | hmem)
      · exact hk rfl
      · exact h.1 hmem

theorem keysNodup_update (trials : List (String × String × Bool)) (res : ImageMap)
    (h : KeysNodup res) : KeysNodup (update_crt_image_level_results res trials).1 := by
  induction trials generalizing res with
  | nil => simpa [update_crt_image_level_results] using h
  | cons p rest ih =>
    obtain ⟨im0, t0, k0⟩ := p
    by_cases hc : t0 ∈ knownImTypes
    · simp only [update_crt_image_level_results, updateOne, hc, if_true]
      exact ih _ (keysNodup_setIm _ _ _ h)
    · simpa [update_crt_image_level_results, updateOne, hc] using h

theorem getIm_of_mem (res : ImageMap) (h : KeysNodup res) (x : String) (cx : ImCounters)
    (hm : (x, cx) ∈ res) : getIm res x = cx := by
  induction res with
  | nil => cases hm
  | cons q rest ih =>
    obtain ⟨k, v⟩ := q
    rw [KeysNodup, List.map_cons, List.nodup_cons] at h
    rcases List.mem_cons.mp hm with heq | hmem
    · injection heq with h1 h2
      subst h1
      subst h2
      simp [getIm]
    · have hxmem : x ∈ List.map Prod.fst rest := by
        have := List.mem_map_of_mem Prod.fst hmem
        simpa using this
      have hxk : k ≠ x := fun hkx => h.1 (hkx ▸ hxmem)
      have hb : (k == x) = false := beq_eq_false_iff_ne.mpr hxk
      simp only [getIm, hb, Bool.false_eq_true, if_false]
      exact ih h.2 hmem

/-! ### Supporting lemmas: counter increments of one classified trial -/

theorem bump_sums (c : ImCounters) (t : String) (k : Bool)
    (h : t ∈ knownImTypes) :
    (bump c t k).n_participants_target
      = c.n_participants_target + (if t == "TARGET" then 1 else 0)
    ∧ (bump c t k).target_cr + (bump c t k).target_fa
      = c.target_cr + c.target_fa + (if t == "TARGET" then 1 else 0)
    ∧ (bump c t k).target_hit + (bump c t k).target_miss
      = c.target_hit + c.target_miss + (if t == "REPEAT" then 1 else 0)
    ∧ (bump c t k).n_participants_filler
      = c.n_participants_filler + (if t == "FILLER" then 1 else 0)
    ∧ (bump c t k).filler_cr + (bump c t k).filler_fa
      = c.filler_cr + c.filler_fa + (if t == "FILLER" then 1 else 0) := by
  have ht : t = "TARGET" ∨ t = "REPEAT" ∨ t = "FILLER" ∨ t = "VIGILANCE" := by
    simpa [knownImTypes] using h
  rcases ht with rfl | rfl | rfl | rfl <;> cases k <;>
    simp [bump] <;> omega

theorem countTrialsOf_cons (im0 t0 : String) (k0 : Bool)
    (rest : List (String × String × Bool)) (im t : String) :
    countTrialsOf ((im0, t0, k0) :: rest) im t
      = countTrialsOf rest im t + (if im0 == im && t0 == t then 1 else 0) := by
  by_cases h : (im0 == im && t0 == t) = true
  · simp [countTrialsOf, List.filter, h]
  · have h2 : (im0 == im && t0 == t) = false := by
      revert h
      cases (im0 == im && t0 == t) <;> simp
    simp [countTrialsOf, List.filter, h2]

/-- Per-image accounting of one participant's full classification pass:
when every trial type is known, the pass never raises, and for every image
the participant adds its per-type trial counts to the counter sums the
emission assertions compare. -/
theorem getIm_update_sums (trials : List (String × String × Bool)) (res : ImageMap)
    (h : allKnownTrials trials = true) :
    (update_crt_image_level_results res trials).2 = true
    ∧ ∀ im : String,
      (getIm (update_crt_image_level_results res trials).1 im).n_participants_target
        = (getIm res im).n_participants_target + countTrialsOf trials im "TARGET"
      ∧ (getIm (update_crt_image_level_results res trials).1 im).target_cr
          + (getIm (update_crt_image_level_results res trials).1 im).target_fa
        = (getIm res im).target_cr + (getIm res im).target_fa
          + countTrialsOf trials im "TARGET"
      ∧ (getIm (update_crt_image_level_results res trials).1 im).target_hit
          + (getIm (update_crt_image_level_results res trials).1 im).target_miss
        = (getIm res im).target_hit + (getIm res im).target_miss
          + countTrialsOf trials im "REPEAT"
      ∧ (getIm (update_crt_image_level_results res trials).1 im).n_participants_filler
        = (getIm res im).n_participants_filler + countTrialsOf trials im "FILLER"
      ∧ (getIm (update_crt_image_level_results res trials).1 im).filler_cr
          + (getIm (update_crt_image_level_results res trials).1 im).filler_fa
        = (getIm res im).filler_cr + (getIm res im).filler_fa
          + countTrialsOf trials im "FILLER" := by
  induction trials generalizing res with
  | nil =>
    simp [update_crt_image_level_results, countTrialsOf, List.filter]
  | cons p rest ih =>
    obtain ⟨im0, t0, k0⟩ := p
    rw [allKnownTrials, List.all_cons, Bool.and_eq_true] at h
    have h0 : t0 ∈ knownImTypes := by simpa using h.1
    have hrest : allKnownTrials rest = true := h.2
    simp only [update_crt_image_level_results, updateOne, h0, if_true]
    obtain ⟨hok, hsums⟩ := ih (setIm res im0 (bump (getIm res im0) t0 k0)) hrest
    refine ⟨hok, fun im => ?_⟩
    obtain ⟨s1, s2, s3, s4, s5⟩ := hsums im
    obtain ⟨b1, b2, b3, b4, b5⟩ := bump_sums (getIm res im0) t0 k0 h0
    by_cases him : im = im0
    · subst him
      rw [getIm_setIm_self] at s1 s2 s3 s4 s5
      rw [b1] at s1
      rw [b2] at s2
      rw [b3] at s3
      rw [b4] at s4
      rw [b5] at s5
      simp only [countTrialsOf_cons, beq_self_eq_true, Bool.true_and]
      exact ⟨by omega, by omega, by omega, by omega, by omega⟩
    · rw [getIm_setIm_ne _ _ _ _ him] at s1 s2 s3 s4 s5
      have hb : (im0 == im) = false := beq_eq_false_iff_ne.mpr (Ne.symm him)
      simp only [countTrialsOf_cons, hb, Bool.false_and, Bool.false_eq_true, if_false,
        Nat.add_zero]
      exact ⟨s1, s2, s3, s4, s5⟩

theorem balanced_counts (trials : List (String × String × Bool))
    (h : balancedTrials trials = true) (im : String) :
    countTrialsOf trials im "TARGET" = countTrialsOf trials im "REPEAT" := by
  by_cases hmem : ∃ p ∈ trials, p.1 = im
  · obtain ⟨p, hp, hpe⟩ := hmem
    rw [balancedTrials, List.all_eq_true] at h
    have hb := h p hp
    rw [hpe] at hb
    simpa using hb
  · push_neg at hmem
    have hz : ∀ t : String, countTrialsOf trials im t = 0 := by
      intro t
      rw [countTrialsOf, List.length_eq_zero, List.filter_eq_nil_iff]
      intro p hp
      have hne := hmem p hp
      have hbe : (p.1 == im) = false := beq_eq_false_iff_ne.mpr hne
      simp [hbe]
    rw [hz "TARGET", hz "REPEAT"]

/-- One `process_crt` call either leaves the shared map untouched (an
excluded or erroring participant) or replaces it by the full classification
update. -/
theorem process_crt_map_cases (cfg : CrtConfig) (tb : List TrialRow) (res : ImageMap) :
    (process_crt cfg tb res).1 = res
    ∨ (process_crt cfg tb res).1
        = (update_crt_image_level_results res (crtTrials cfg tb)).1 := by
  unfold process_crt
  split
  · split
    · left
      rfl
    · split
      · left
        rfl
      · split
        · left
          rfl
        · split
          · rcases h2 : update_crt_image_level_results res (crtTrials cfg tb) with ⟨res2, b⟩
            right
            cases b <;> simp [h2]
          · left
            rfl
  · left
    rfl

/-- Processing one participant whose classified trial stream has known
types and balanced target/repeat counts preserves distinct keys and the
per-image consistency identities. -/
theorem process_crt_preserves (cfg : CrtConfig) (tb : List TrialRow) (res : ImageMap)
    (hn : KeysNodup res) (hc : ∀ im, trialConsistent (getIm res im) = true)
    (hk : allKnownTrials (crtTrials cfg tb) = true)
    (hb : balancedTrials (crtTrials cfg tb) = true) :
    KeysNodup (process_crt cfg tb res).1
    ∧ ∀ im, trialConsistent (getIm (process_crt cfg tb res).1 im) = true := by
  rcases process_crt_map_cases cfg tb res with heq | heq
  · rw [heq]
    exact ⟨hn, hc⟩
  · rw [heq]
    refine ⟨keysNodup_update _ _ hn, fun im => ?_⟩
    obtain ⟨-, hsums⟩ := getIm_update_sums (crtTrials cfg tb) res hk
    obtain ⟨s1, s2, s3, s4, s5⟩ := hsums im
    have hbal := balanced_counts _ hb im
    have hold := hc im
    simp only [trialConsistent, Bool.and_eq_true, beq_iff_eq] at hold ⊢
    obtain ⟨⟨h1, h2⟩, h3⟩ := hold
    exact ⟨⟨by omega, by omega⟩, by omega⟩

/-- The cohort fold, started from any consistent map, stays consistent. -/
theorem metricsFoldAux_invariant (cfg : CrtConfig) (tables : List (List TrialRow))
    (res : ImageMap)
    (hn : KeysNodup res) (hc : ∀ im, trialConsistent (getIm res im) = true)
    (h : ∀ tb ∈ tables, allKnownTrials (crtTrials cfg tb) = true
      ∧ balancedTrials (crtTrials cfg tb) = true) :
    KeysNodup (tables.foldl (fun r tb => (process_crt cfg tb r).1) res)
    ∧ ∀ im, trialConsistent
        (getIm (tables.foldl (fun r tb => (process_crt cfg tb r).1) res) im) = true := by
  induction tables generalizing res with
  | nil => exact ⟨hn, hc⟩
  | cons tb rest ih =>
    obtain ⟨hk, hb⟩ := h tb (List.mem_cons_self _ _)
    obtain ⟨hn2, hc2⟩ := process_crt_preserves cfg tb res hn hc hk hb
    exact ih _ hn2 hc2 (fun t ht => h t (List.mem_cons_of_mem _ ht))

/-- Pointwise consistency of the map transfers to the sorted assertion
scan of the finalize step. -/
theorem checkAsserts_of_getIm (res : ImageMap) (hn : KeysNodup res)
    (hc : ∀ im, trialConsistent (getIm res im) = true) :
    checkAsserts (sortByImage res) = true := by
  rw [checkAsserts, List.all_eq_true]
  intro p hp
  have hp2 : p ∈ res := (List.mem_insertionSort _).mp hp
  obtain ⟨x, cx⟩ := p
  have hg := getIm_of_mem res hn x cx hp2
  rw [← hg]
  exact hc x

/-- The status-collecting cohort fold appends exactly one status per
processed table. -/
theorem metricsMainAux_length (cfg : CrtConfig) (tables : List (List TrialRow))
    (acc : ImageMap × List CrtStatus) :
    ((tables.foldl (fun acc tb =>
        let r := process_crt cfg tb acc.1
        (r.1, acc.2 ++ [r.2])) acc).2).length = acc.2.length + tables.length := by
  induction tables generalizing acc with
  | nil => simp
  | cons tb rest ih =>
    rw [List.foldl_cons, ih]
    simp
    omega

/-- The `02_to_bids.py` loop aborts at the first invalid record, reporting
its row index, regardless of what follows it. -/
theorem bidsMainAux_error_at (cfg : AttnConfig) (st isi : ℚ)
    (pre : List RawRecord) (bad : RawRecord) (post : List RawRecord) (idx : Nat)
    (hpre : ∀ r ∈ pre,
      validate_data r.imseq r.imtypeseq r.keyPressSequence r.RTSequence cfg = true
      ∧ (build_trial_df r.imseq r.imtypeseq r.keyPressSequence r.RTSequence st isi).isSome
          = true)
    (hbad : validate_data bad.imseq bad.imtypeseq bad.keyPressSequence bad.RTSequence cfg
        = false) :
    bidsMainAux cfg st isi idx (pre ++ bad :: post) = .error (idx + pre.length) := by
  induction pre generalizing idx with
  | nil => simp [bidsMainAux, hbad]
  | cons r rest ih =>
    obtain ⟨h1, h2⟩ := hpre r (List.mem_cons_self _ _)
    obtain ⟨tbl, htbl⟩ := Option.isSome_iff_exists.mp h2
    have hrec := ih (idx + 1) (fun q hq => hpre q (List.mem_cons_of_mem _ hq))
    simp only [List.cons_append, bidsMainAux, h1, if_true, htbl, Except.map, List.append_eq]
    rw [hrec]
    have harith : idx + 1 + rest.length = idx + (rest.length + 1) := by omega
    simp [harith]

/-! ### Supporting lemmas: the boolean-mask selection of the validator -/

theorem mem_maskFilter (l : List String) :
    ∀ (m : List String) (t x : String),
      x ∈ maskFilter l m t
        ↔ ∃ j, j < l.length ∧ j < m.length ∧ l.getD j "" = x ∧ m.getD j "" = t := by
  induction l with
  | nil =>
    intro m t x
    simp [maskFilter]
  | cons a lr ih =>
    intro m t x
    cases m with
    | nil => simp [maskFilter]
    | cons m0 ms =>
      constructor
      · intro hx
        by_cases hm : (m0 == t) = true
        · rw [maskFilter, if_pos hm] at hx
          rcases List.mem_cons.mp hx with rfl | hx2
          · exact ⟨0, by simp, by simp, by simp, by simpa using hm⟩
          · obtain ⟨j, hj1, hj2, hj3, hj4⟩ := (ih ms t x).mp hx2
            refine ⟨j + 1, by simpa using hj1, by simpa using hj2, ?_, ?_⟩
            · simpa [List.getD_cons_succ] using hj3
            · simpa [List.getD_cons_succ] using hj4
        · rw [maskFilter, if_neg hm] at hx
          obtain ⟨j, hj1, hj2, hj3, hj4⟩ := (ih ms t x).mp hx
          refine ⟨j + 1, by simpa using hj1, by simpa using hj2, ?_, ?_⟩
          · simpa [List.getD_cons_succ] using hj3
          · simpa [List.getD_cons_succ] using hj4
      · rintro ⟨j, hj1, hj2, hj3, hj4⟩
        cases j with
        | zero =>
          rw [List.getD_cons_zero] at hj3 hj4
          subst hj3
          subst hj4
          rw [maskFilter, if_pos (beq_self_eq_true m0)]
          exact List.mem_cons_self _ _
        | succ j2 =>
          rw [List.getD_cons_succ] at hj3 hj4
          have hx2 : x ∈ maskFilter lr ms t :=
            (ih ms t x).mpr ⟨j2, by simpa using hj1, by simpa using hj2, hj3, hj4⟩
          rw [maskFilter]
          by_cases hm : (m0 == t) = true
          · rw [if_pos hm]
            exact List.mem_cons_of_mem _ hx2
          · rw [if_neg hm]
            exact hx2

theorem getD_take (l : List String) (i j : Nat) (h : j < i) (d : String) :
    (l.take i).getD j d = l.getD j d := by
  rw [List.getD_eq_getElem?_getD, List.getD_eq_getElem?_getD, List.getElem?_take_of_lt h]

/-! ### Supporting lemmas: the trial-table builder -/

theorem IMTYPE_INV_DICT (x y : String) (h : IMTYPE_DICT x = some y) :
    IMTYPE_INV y = some x := by
  by_cases h0 : (x == "0") = true
  · rw [show x = "0" by simpa using h0] at h
    have hy : y = "FIXATION" := by
      have h2 : some "FIXATION" = some y := by simpa [IMTYPE_DICT] using h
      injection h2 with h3
      exact h3.symm
    subst hy
    rw [show x = "0" by simpa using h0]
    decide
  · simp only [Bool.not_eq_true] at h0
    by_cases h1 : (x == "1") = true
    · rw [show x = "1" by simpa using h1] at h
      have hy : y = "TARGET" := by
        have h2 : some "TARGET" = some y := by simpa [IMTYPE_DICT] using h
        injection h2 with h3
        exact h3.symm
      subst hy
      rw [show x = "1" by simpa using h1]
      decide
    · simp only [Bool.not_eq_true] at h1
      by_cases h2 : (x == "2") = true
      · rw [show x = "2" by simpa using h2] at h
        have hy : y = "REPEAT" := by
          have h2 : some "REPEAT" = some y := by simpa [IMTYPE_DICT] using h
          injection h2 with h3
          exact h3.symm
        subst hy
        rw [show x = "2" by simpa using h2]
        decide
      · simp only [Bool.not_eq_true] at h2
        by_cases h3 : (x == "3") = true
        · rw [show x = "3" by simpa using h3] at h
          have hy : y = "FILLER" := by
            have h2 : some "FILLER" = some y := by simpa [IMTYPE_DICT] using h
            injection h2 with h3
            exact h3.symm
          subst hy
          rw [show x = "3" by simpa using h3]
          decide
        · simp only [Bool.not_eq_true] at h3
          by_cases h4 : (x == "4") = true
          · rw [show x = "4" by simpa using h4] at h
            have hy : y = "VIGILANCE" := by
              have h2 : some "VIGILANCE" = some y := by simpa [IMTYPE_DICT] using h
              injection h2 with h3
              exact h3.symm
            subst hy
            rw [show x = "4" by simpa using h4]
            decide
          · simp only [Bool.not_eq_true] at h4
            rw [IMTYPE_DICT] at h
            simp only [h0, h1, h2, h3, h4, Bool.false_eq_true, if_false] at h
            cases h

theorem mapOpt_inv (l : List String) :
    ∀ names, mapOpt IMTYPE_DICT l = some names →
      names.map IMTYPE_INV = l.map some ∧ names.length = l.length := by
  induction l with
  | nil =>
    intro names h
    rw [mapOpt] at h
    injection h with h2
    subst h2
    simp
  | cons x xs ih =>
    intro names h
    rw [mapOpt] at h
    cases hfx : IMTYPE_DICT x with
    | none => rw [hfx] at h; cases h
    | some y =>
      rw [hfx] at h
      cases hrec : mapOpt IMTYPE_DICT xs with
      | none => rw [hrec] at h; cases h
      | some ys =>
        rw [hrec] at h
        injection h with h2
        subst h2
        obtain ⟨hmap, hlen⟩ := ih ys hrec
        refine ⟨?_, by simpa using hlen⟩
        rw [List.map_cons, List.map_cons, hmap, IMTYPE_INV_DICT x y hfx]

theorem onsetsDurations_length (l : List String) (st isi : ℚ) :
    ∀ o : ℚ, (onsetsDurations l st isi o).length = l.length := by
  induction l with
  | nil => intro o; rfl
  | cons t rest ih =>
    intro o
    by_cases ht : (t == FIXATION) = true
    · simp [onsetsDurations, ht, ih]
    · simp [onsetsDurations, ht, ih]

theorem assembleRows_maps :
    ∀ (ns : List String) (ods : List (ℚ × ℚ)) (ks rs ims : List String),
      ods.length = ns.length → ks.length = ns.length → rs.length = ns.length →
      ims.length = ns.length →
      (assembleRows ods ns ks rs ims).map (fun r => r.stim_file) = ims
      ∧ (assembleRows ods ns ks rs ims).map (fun r => r.trial_type) = ns
      ∧ (assembleRows ods ns ks rs ims).map (fun r => r.response.isSome)
          = ks.map (fun k => !(k == "")) := by
  intro ns
  induction ns with
  | nil =>
    intro ods ks rs ims h1 h2 h3 h4
    rw [List.length_nil, List.length_eq_zero] at h1 h2 h3 h4
    subst h1
    subst h2
    subst h3
    subst h4
    simp [assembleRows]
  | cons n ns2 ih =>
    intro ods ks rs ims h1 h2 h3 h4
    cases ods with
    | nil => simp at h1
    | cons od ods2 =>
      cases ks with
      | nil => simp at h2
      | cons k ks2 =>
        cases rs with
        | nil => simp at h3
        | cons r rs2 =>
          cases ims with
          | nil => simp at h4
          | cons im ims2 =>
            simp only [List.length_cons, Nat.add_right_cancel_iff] at h1 h2 h3 h4
            obtain ⟨m1, m2, m3⟩ := ih ods2 ks2 rs2 ims2 h1 h2 h3 h4
            refine ⟨?_, ?_, ?_⟩
            · simp [assembleRows, m1]
            · simp [assembleRows, m2]
            · rw [List.map_cons]
              simp only [assembleRows, List.map_cons, m3]
              by_cases hk : (k == "") = true
              · simp [strOpt, hk]
              · simp [strOpt, hk]

/-! ### Supporting lemmas: the exclusion gates of `process_crt` -/

theorem lenGuard_false (cfg : CrtConfig) (df : List TrialRow)
    (hlen : cfg.consolidate_fixation = true →
      (everyOther (rawPresses cfg.valid_response df)).length
        = (everyOtherOdd (rawPresses cfg.valid_response df)).length) :
    (cfg.consolidate_fixation &&
      ((everyOther (rawPresses cfg.valid_response df)).length
        != (everyOtherOdd (rawPresses cfg.valid_response df)).length)) = false := by
  cases hc : cfg.consolidate_fixation
  · simp
  · simp [hlen hc]

/-- With the alternation precondition satisfied and the press slices of
equal length, the returned status is `fail_filler_far` exactly when the
filler gate fires, and otherwise `fail_vigilance_miss` exactly when the
vigilance gate fires. -/
theorem process_crt_gate_iff (cfg : CrtConfig) (df : List TrialRow) (res : ImageMap)
    (halt : alternationOK df = true)
    (hlen : (cfg.consolidate_fixation &&
      ((everyOther (rawPresses cfg.valid_response df)).length
        != (everyOtherOdd (rawPresses cfg.valid_response df)).length)) = false) :
    ((process_crt cfg df res).2 = CrtStatus.fail_filler_far
      ↔ nanGe (filler_false_alarm cfg df) cfg.far_threshold = true)
    ∧ ((process_crt cfg df res).2 ≠ CrtStatus.fail_filler_far →
       ((process_crt cfg df res).2 = CrtStatus.fail_vigilance_miss
         ↔ nanGe (vigilance_miss_rate cfg df) cfg.vigilance_miss_threshold = true)) := by
  unfold process_crt
  rw [if_pos halt, if_neg (by simp [hlen])]
  by_cases hf : nanGe (filler_false_alarm cfg df) cfg.far_threshold = true
  · rw [if_pos hf]
    exact ⟨⟨fun _ => hf, fun _ => rfl⟩, fun hne => absurd rfl hne⟩
  · rw [if_neg hf]
    have hf2 : nanGe (filler_false_alarm cfg df) cfg.far_threshold = false := by
      revert hf
      cases nanGe (filler_false_alarm cfg df) cfg.far_threshold <;> simp
    by_cases hv : nanGe (vigilance_miss_rate cfg df) cfg.vigilance_miss_threshold = true
    · rw [if_pos hv]
      refine ⟨⟨nofun, fun h => ?_⟩, fun _ => ⟨fun _ => hv, fun _ => rfl⟩⟩
      rw [h] at hf2
      cases hf2
    · rw [if_neg hv]
      have hv2 : nanGe (vigilance_miss_rate cfg df) cfg.vigilance_miss_threshold = false := by
        revert hv
        cases nanGe (vigilance_miss_rate cfg df) cfg.vigilance_miss_threshold <;> simp
      constructor
      · constructor
        · intro h
          revert h
          split
          · rcases h2 : update_crt_image_level_results res (crtTrials cfg df) with ⟨r2, b⟩
            cases b <;> simp [h2]
          · intro h
            cases h
        · intro h
          rw [h] at hf2
          cases hf2
      · intro _
        constructor
        · intro h
          revert h
          split
          · rcases h2 : update_crt_image_level_results res (crtTrials cfg df) with ⟨r2, b⟩
            cases b <;> simp [h2]
          · intro h
            cases h
        · intro h
          rw [h] at hv2
          cases hv2

/-- The branch statuses of `process_crt` together with the map each branch
returns. -/
theorem process_crt_status_cases (cfg : CrtConfig) (df : List TrialRow) (res : ImageMap) :
    ((process_crt cfg df res).2 = CrtStatus.err ∧ (process_crt cfg df res).1 = res)
    ∨ ((process_crt cfg df res).2 = CrtStatus.fail_filler_far
        ∧ (process_crt cfg df res).1 = res)
    ∨ ((process_crt cfg df res).2 = CrtStatus.fail_vigilance_miss
        ∧ (process_crt cfg df res).1 = res)
    ∨ ((process_crt cfg df res).2 = CrtStatus.valid
        ∧ cfg.update_image_level_results = false ∧ (process_crt cfg df res).1 = res)
    ∨ (cfg.update_image_level_results = true
        ∧ (process_crt cfg df res).1
            = (update_crt_image_level_results res (crtTrials cfg df)).1
        ∧ ((update_crt_image_level_results res (crtTrials cfg df)).2 = true
            → (process_crt cfg df res).2 = CrtStatus.valid)
        ∧ ((update_crt_image_level_results res (crtTrials cfg df)).2 = false
            → (process_crt cfg df res).2 = CrtStatus.err)) := by
  unfold process_crt
  split
  · split
    · exact Or.inl ⟨rfl, rfl⟩
    · split
      · exact Or.inr (Or.inl ⟨rfl, rfl⟩)
      · split
        · exact Or.inr (Or.inr (Or.inl ⟨rfl, rfl⟩))
        · split
          · rcases h2 : update_crt_image_level_results res (crtTrials cfg df) with ⟨r2, b⟩
            refine Or.inr (Or.inr (Or.inr (Or.inr ⟨by assumption, ?_, ?_, ?_⟩)))
            · cases b <;> simp [h2]
            · intro hb
              cases b
              · cases hb
              · simp
            · intro hb
              cases b
              · simp
              · cases hb
          · refine Or.inr (Or.inr (Or.inr (Or.inl ⟨rfl, ?_, rfl⟩)))
            next hupd => exact Bool.not_eq_true _ |>.mp hupd
  · exact Or.inl ⟨rfl, rfl⟩

/-! ### Claim theorems -/

/-- C1: for a table that passes both exclusion gates the classification
step processes each on-image trial exactly per the signal-detection table:
a responded `TARGET` increments `target_fa` (else `target_cr`), both
incrementing `n_participants_target`; `REPEAT` increments `target_hit` /
`target_miss`; `FILLER` increments `filler_fa` / `filler_cr` plus
`n_participants_filler`; `VIGILANCE` increments `filler_hit` /
`filler_miss`; every other counter and every other image is untouched; any
other trial type raises the fatal `Unknown trial type` error; and the map
returned by a `Valid` run of `process_crt` is exactly the fold of this
per-trial step over the on-image trials. -/
theorem claim1_signal_detection_table (res : ImageMap) (im : String) (k : Bool) :
    (∃ res2, updateOne res im "TARGET" k = Except.ok res2
      ∧ getIm res2 im = { getIm res im with
          n_participants_target := (getIm res im).n_participants_target + 1,
          target_fa := (getIm res im).target_fa + (if k then 1 else 0),
          target_cr := (getIm res im).target_cr + (if k then 0 else 1) }
      ∧ ∀ im2, im2 ≠ im → getIm res2 im2 = getIm res im2)
    ∧ (∃ res2, updateOne res im "REPEAT" k = Except.ok res2
      ∧ getIm res2 im = { getIm res im with
          target_hit := (getIm res im).target_hit + (if k then 1 else 0),
          target_miss := (getIm res im).target_miss + (if k then 0 else 1) }
      ∧ ∀ im2, im2 ≠ im → getIm res2 im2 = getIm res im2)
    ∧ (∃ res2, updateOne res im "FILLER" k = Except.ok res2
      ∧ getIm res2 im = { getIm res im with
          n_participants_filler := (getIm res im).n_participants_filler + 1,
          filler_fa := (getIm res im).filler_fa + (if k then 1 else 0),
          filler_cr := (getIm res im).filler_cr + (if k then 0 else 1) }
      ∧ ∀ im2, im2 ≠ im → getIm res2 im2 = getIm res im2)
    ∧ (∃ res2, updateOne res im "VIGILANCE" k = Except.ok res2
      ∧ getIm res2 im = { getIm res im with
          filler_hit := (getIm res im).filler_hit + (if k then 1 else 0),
          filler_miss := (getIm res im).filler_miss + (if k then 0 else 1) }
      ∧ ∀ im2, im2 ≠ im → getIm res2 im2 = getIm res im2)
    ∧ (∀ t, t ∉ knownImTypes → updateOne res im t k = Except.error "Unknown trial type")
    ∧ (∀ (cfg : CrtConfig) (df : List TrialRow) (res0 : ImageMap),
        cfg.update_image_level_results = true →
        (process_crt cfg df res0).2 = CrtStatus.valid →
        (process_crt cfg df res0).1
          = (update_crt_image_level_results res0 (crtTrials cfg df)).1) := by
  refine ⟨⟨setIm res im (bump (getIm res im) "TARGET" k), ?_, ?_, ?_⟩,
    ⟨setIm res im (bump (getIm res im) "REPEAT" k), ?_, ?_, ?_⟩,
    ⟨setIm res im (bump (getIm res im) "FILLER" k), ?_, ?_, ?_⟩,
    ⟨setIm res im (bump (getIm res im) "VIGILANCE" k), ?_, ?_, ?_⟩, ?_, ?_⟩
  · rw [updateOne, if_pos (show ("TARGET" : String) ∈ knownImTypes by decide)]
  · rw [getIm_setIm_self]
    cases k <;> rfl
  · exact fun im2 h => getIm_setIm_ne _ _ _ _ h
  · rw [updateOne, if_pos (show ("REPEAT" : String) ∈ knownImTypes by decide)]
  · rw [getIm_setIm_self]
    cases k <;> rfl
  · exact fun im2 h => getIm_setIm_ne _ _ _ _ h
  · rw [updateOne, if_pos (show ("FILLER" : String) ∈ knownImTypes by decide)]
  · rw [getIm_setIm_self]
    cases k <;> rfl
  · exact fun im2 h => getIm_setIm_ne _ _ _ _ h
  · rw [updateOne, if_pos (show ("VIGILANCE" : String) ∈ knownImTypes by decide)]
  · rw [getIm_setIm_self]
    cases k <;> rfl
  · exact fun im2 h => getIm_setIm_ne _ _ _ _ h
  · intro t ht
    rw [updateOne, if_neg ht]
  · intro cfg df res0 hupd hv
    rcases process_crt_status_cases cfg df res0 with
      ⟨h1, h2⟩ | ⟨h1, h2⟩ | ⟨h1, h2⟩ | ⟨h1, h2, h3⟩ | ⟨h1, h2, h3, h4⟩
    · rw [h1] at hv
      cases hv
    · rw [h1] at hv
      cases hv
    · rw [h1] at hv
      cases hv
    · rw [hupd] at h2
      cases h2
    · exact h2

/-- Witness for C1 at a concrete input: with an empty map, image `A` and a
keypress, a `TARGET` trial ends with `target_fa = 1`, and a stray
`FIXATION` on an on-image slot raises. -/
theorem claim1_witness :
    updateOne [] "A" "FIXATION" true = Except.error "Unknown trial type"
    ∧ (getIm ((updateOne [] "A" "TARGET" true).toOption.getD []) "A").target_fa = 1 := by
  obtain ⟨⟨res2, he, hg, -⟩, -, -, -, herr, -⟩ := claim1_signal_detection_table [] "A" true
  refine ⟨herr "FIXATION" (by decide), ?_⟩
  rw [he, show (Except.ok res2 : Except String ImageMap).toOption.getD [] = res2 from rfl, hg]
  rfl

/-- C3: under the alternation precondition and matched press-slice
lengths, `process_crt` returns the filler-FAR exclusion status exactly when
the filler false-alarm rate is `>=` the threshold (equality excludes), and,
when not FAR-excluded, returns the vigilance-miss exclusion status exactly
when the vigilance miss rate is `>=` its threshold. -/
theorem claim3_exclusion_thresholds (cfg : CrtConfig) (df : List TrialRow) (res : ImageMap)
    (halt : alternationOK df = true)
    (hlen : cfg.consolidate_fixation = true →
      (everyOther (rawPresses cfg.valid_response df)).length
        = (everyOtherOdd (rawPresses cfg.valid_response df)).length) :
    ((process_crt cfg df res).2 = CrtStatus.fail_filler_far
      ↔ nanGe (filler_false_alarm cfg df) cfg.far_threshold = true)
    ∧ ((process_crt cfg df res).2 ≠ CrtStatus.fail_filler_far →
       ((process_crt cfg df res).2 = CrtStatus.fail_vigilance_miss
         ↔ nanGe (vigilance_miss_rate cfg df) cfg.vigilance_miss_threshold = true)) :=
  process_crt_gate_iff cfg df res halt (lenGuard_false cfg df hlen)

/-- Witness for C3 at the boundary: a filler false-alarm rate exactly
`0.7` against the default threshold `0.7` is excluded, and a rate of
exactly `0.69` is not FAR-excluded. -/
theorem claim3_witness :
    (process_crt defaultCrtConfig tblBoundaryFar []).2 = CrtStatus.fail_filler_far
    ∧ (process_crt defaultCrtConfig tblBelowFar []).2 ≠ CrtStatus.fail_filler_far := by
  constructor
  · exact (claim3_exclusion_thresholds defaultCrtConfig tblBoundaryFar [] (by decide)
      (fun _ => by decide)).1.mpr (by with_unfolding_all decide)
  · intro habs
    have hr := (claim3_exclusion_thresholds defaultCrtConfig tblBelowFar [] (by decide)
      (fun _ => by decide)).1.mp habs
    revert hr
    with_unfolding_all decide

/-- C4: whenever `process_crt` returns one of the two exclusion statuses,
the counter map it returns is exactly the map it was given. -/
theorem claim4_excluded_leaves_counters (cfg : CrtConfig) (df : List TrialRow)
    (res : ImageMap)
    (h : (process_crt cfg df res).2 = CrtStatus.fail_filler_far
      ∨ (process_crt cfg df res).2 = CrtStatus.fail_vigilance_miss) :
    (process_crt cfg df res).1 = res := by
  rcases process_crt_status_cases cfg df res with
    ⟨h1, h2⟩ | ⟨h1, h2⟩ | ⟨h1, h2⟩ | ⟨h1, h2, h3⟩ | ⟨h1, h2, h3, h4⟩
  · exact h2
  · exact h2
  · exact h2
  · exact h3
  · cases hb : (update_crt_image_level_results res (crtTrials cfg df)).2 with
    | false =>
      rcases h with hs | hs <;> rw [h4 hb] at hs <;> cases hs
    | true =>
      rcases h with hs | hs <;> rw [h3 hb] at hs <;> cases hs

/-- Witness for C4: a participant excluded for a filler false-alarm rate
of `1.0` leaves a pre-populated counter map untouched. -/
theorem claim4_witness :
    (process_crt defaultCrtConfig (fillerPair true) [("X", initCounters)]).2
      = CrtStatus.fail_filler_far
    ∧ (process_crt defaultCrtConfig (fillerPair true) [("X", initCounters)]).1
      = [("X", initCounters)] := by
  refine ⟨by with_unfolding_all decide, ?_⟩
  exact claim4_excluded_leaves_counters defaultCrtConfig (fillerPair true)
    [("X", initCounters)] (Or.inl (by with_unfolding_all decide))

/-- C10: a table with no `FILLER` on-image trials makes the filler
false-alarm rate the unguarded `0/0` (NaN, modelled as `none`), and since a
NaN comparison is false the participant is never FAR-excluded; likewise a
table with no `VIGILANCE` trials can never trigger the vigilance-miss
exclusion. -/
theorem claim10_nan_gates (cfg : CrtConfig) (df : List TrialRow) (res : ImageMap) :
    ((crtImtypeseq df).count "FILLER" = 0 →
      filler_false_alarm cfg df = none
      ∧ (process_crt cfg df res).2 ≠ CrtStatus.fail_filler_far)
    ∧ ((crtImtypeseq df).count "VIGILANCE" = 0 →
      vigilance_miss_rate cfg df = none
      ∧ (process_crt cfg df res).2 ≠ CrtStatus.fail_vigilance_miss) := by
  constructor
  · intro h0
    have hrate : filler_false_alarm cfg df = none := by
      rw [filler_false_alarm, h0]
      rfl
    refine ⟨hrate, ?_⟩
    by_cases halt : alternationOK df = true
    · by_cases hg : (cfg.consolidate_fixation &&
        ((everyOther (rawPresses cfg.valid_response df)).length
          != (everyOtherOdd (rawPresses cfg.valid_response df)).length)) = true
      · have heq : process_crt cfg df res = (res, CrtStatus.err) := by
          unfold process_crt
          rw [if_pos halt, if_pos hg]
        rw [heq]
        nofun
      · have hg2 : (cfg.consolidate_fixation &&
          ((everyOther (rawPresses cfg.valid_response df)).length
            != (everyOtherOdd (rawPresses cfg.valid_response df)).length)) = false := by
          revert hg
          cases (cfg.consolidate_fixation &&
            ((everyOther (rawPresses cfg.valid_response df)).length
              != (everyOtherOdd (rawPresses cfg.valid_response df)).length)) <;> simp
        intro hs
        have hnan := (process_crt_gate_iff cfg df res halt hg2).1.mp hs
        rw [hrate] at hnan
        cases hnan
    · have halt2 : alternationOK df = false := by
        revert halt
        cases alternationOK df <;> simp
      have heq : process_crt cfg df res = (res, CrtStatus.err) := by
        unfold process_crt
        rw [if_neg (by simp [halt2])]
      rw [heq]
      nofun
  · intro h0
    have hrate : vigilance_miss_rate cfg df = none := by
      rw [vigilance_miss_rate, h0]
      rfl
    refine ⟨hrate, ?_⟩
    by_cases halt : alternationOK df = true
    · by_cases hg : (cfg.consolidate_fixation &&
        ((everyOther (rawPresses cfg.valid_response df)).length
          != (everyOtherOdd (rawPresses cfg.valid_response df)).length)) = true
      · have heq : process_crt cfg df res = (res, CrtStatus.err) := by
          unfold process_crt
          rw [if_pos halt, if_pos hg]
        rw [heq]
        nofun
      · have hg2 : (cfg.consolidate_fixation &&
          ((everyOther (rawPresses cfg.valid_response df)).length
            != (everyOtherOdd (rawPresses cfg.valid_response df)).length)) = false := by
          revert hg
          cases (cfg.consolidate_fixation &&
            ((everyOther (rawPresses cfg.valid_response df)).length
              != (everyOtherOdd (rawPresses cfg.valid_response df)).length)) <;> simp
        intro hs
        have hfne : (process_crt cfg df res).2 ≠ CrtStatus.fail_filler_far := by
          rw [hs]
          nofun
        have hnan := ((process_crt_gate_iff cfg df res halt hg2).2 hfne).mp hs
        rw [hrate] at hnan
        cases hnan
    · have halt2 : alternationOK df = false := by
        revert halt
        cases alternationOK df <;> simp
      have heq : process_crt cfg df res = (res, CrtStatus.err) := by
        unfold process_crt
        rw [if_neg (by simp [halt2])]
      rw [heq]
      nofun

/-- Witness for C10: the lone-target participant has no filler and no
vigilance trials, both rates are the NaN marker, and neither exclusion
fires (the participant proceeds and is classified as valid). -/
theorem claim10_witness :
    filler_false_alarm defaultCrtConfig loneTargetTable = none
    ∧ vigilance_miss_rate defaultCrtConfig loneTargetTable = none
    ∧ (process_crt defaultCrtConfig loneTargetTable []).2 ≠ CrtStatus.fail_filler_far
    ∧ (process_crt defaultCrtConfig loneTargetTable []).2 ≠ CrtStatus.fail_vigilance_miss := by
  obtain ⟨p1, p2⟩ := claim10_nan_gates defaultCrtConfig loneTargetTable []
  obtain ⟨a1, a2⟩ := p1 (by decide)
  obtain ⟨b1, b2⟩ := p2 (by decide)
  exact ⟨a1, b1, a2, b2⟩

/-- C2: whenever `validate_data` succeeds, every `Repeat`-typed trial's
image appeared earlier typed `Target` and occurs exactly twice in the whole
sequence, with the halved occurrence-index gap in the configured
`(min, max]` window — minimum exclusive, maximum inclusive; and every
`Vigilance`-typed trial's image appeared earlier typed `Filler`, occurs
exactly twice, with the halved gap in `[min, max]` — both inclusive.  The
asymmetry between the two paths is exactly the source's. -/
theorem claim2_validator_only_if (imseq imtypeseq kps rts : List String) (cfg : AttnConfig)
    (h : validate_data imseq imtypeseq kps rts cfg = true) :
    ∀ i, i < imseq.length →
      (imtypeseq.getD i "" = REPEAT →
        (∃ j, j < i ∧ imseq.getD j "" = imseq.getD i "" ∧ imtypeseq.getD j "" = TARGET)
        ∧ imseq.count (imseq.getD i "") = 2
        ∧ (∀ mn, cfg.min_repeat_interval = some mn → mn < gapHalf imseq (imseq.getD i ""))
        ∧ (∀ mx, cfg.max_repeat_interval = some mx → gapHalf imseq (imseq.getD i "") ≤ mx))
      ∧ (imtypeseq.getD i "" = VIGILANCE →
        (∃ j, j < i ∧ imseq.getD j "" = imseq.getD i "" ∧ imtypeseq.getD j "" = FILLER)
        ∧ imseq.count (imseq.getD i "") = 2
        ∧ (∀ mn, cfg.min_vigilance_interval = some mn →
            mn ≤ gapHalf imseq (imseq.getD i ""))
        ∧ (∀ mx, cfg.max_vigilance_interval = some mx →
            gapHalf imseq (imseq.getD i "") ≤ mx)) := by
  rw [validate_data] at h
  simp only [Bool.and_eq_true] at h
  have hpt : perTrialOK imseq imtypeseq cfg = true := h.1.2
  intro i hi
  have hbody := List.all_eq_true.mp hpt i (List.mem_range.mpr hi)
  constructor
  · intro ht
    have hbe : (imtypeseq.getD i "" == REPEAT) = true := by
      rw [ht]
      exact beq_self_eq_true _
    rw [if_pos hbe] at hbody
    rw [repeatTrialOK] at hbody
    simp only [Bool.and_eq_true] at hbody
    obtain ⟨⟨⟨c1, c2⟩, c3⟩, c4⟩ := hbody
    refine ⟨?_, by simpa using c2, ?_, ?_⟩
    · have hmem := of_decide_eq_true c1
      obtain ⟨j, hj1, hj2, hj3, hj4⟩ := (mem_maskFilter _ _ _ _).mp hmem
      have hji : j < i := by
        have := List.length_take_le i imseq
        have h2 : (imseq.take i).length = min i imseq.length := List.length_take i imseq
        omega
      refine ⟨j, hji, ?_, ?_⟩
      · rw [← getD_take imseq i j hji ""]
        exact hj3
      · rw [← getD_take imtypeseq i j hji ""]
        exact hj4
    · intro mn hmn
      rw [hmn] at c3
      exact of_decide_eq_true c3
    · intro mx hmx
      rw [hmx] at c4
      exact of_decide_eq_true c4
  · intro ht
    have hbe1 : (imtypeseq.getD i "" == REPEAT) = false := by
      rw [ht]
      decide
    have hbe2 : (imtypeseq.getD i "" == VIGILANCE) = true := by
      rw [ht]
      exact beq_self_eq_true _
    rw [if_neg (by rw [hbe1]; exact Bool.false_ne_true), if_pos hbe2] at hbody
    rw [vigilanceTrialOK] at hbody
    simp only [Bool.and_eq_true] at hbody
    obtain ⟨⟨⟨c1, c2⟩, c3⟩, c4⟩ := hbody
    refine ⟨?_, by simpa using c2, ?_, ?_⟩
    · have hmem := of_decide_eq_true c1
      obtain ⟨j, hj1, hj2, hj3, hj4⟩ := (mem_maskFilter _ _ _ _).mp hmem
      have hji : j < i := by
        have h2 : (imseq.take i).length = min i imseq.length := List.length_take i imseq
        omega
      refine ⟨j, hji, ?_, ?_⟩
      · rw [← getD_take imseq i j hji ""]
        exact hj3
      · rw [← getD_take imtypeseq i j hji ""]
        exact hj4
    · intro mn hmn
      rw [hmn] at c3
      exact of_decide_eq_true c3
    · intro mx hmx
      rw [hmx] at c4
      exact of_decide_eq_true c4

/-- Witness for C2: a six-trial sequence with a target/repeat pair at
halved gap `2`, validated under a full configuration whose repeat window is
`(1, 2]` — the maximum bound is attained, exercising its inclusivity. -/
theorem claim2_witness :
    validate_data imseqSix typesSix blankSix blankSix cfgSix = true
    ∧ imseqSix.count (imseqSix.getD 4 "") = 2
    ∧ (1 : ℚ) < gapHalf imseqSix (imseqSix.getD 4 "")
    ∧ gapHalf imseqSix (imseqSix.getD 4 "") ≤ 2 := by
  have hv : validate_data imseqSix typesSix blankSix blankSix cfgSix = true := by
    with_unfolding_all decide
  obtain ⟨-, hcount, hmin, hmax⟩ :=
    (claim2_validator_only_if imseqSix typesSix blankSix blankSix cfgSix hv 4
      (by decide)).1 (by decide)
  exact ⟨hv, hcount, hmin 1 rfl, hmax 2 rfl⟩

/-- C5: a response counts as made on on-image trial `i` exactly when a
valid code was recorded at row `2*i`, OR — exactly when
`consolidate_fixation` is set — a valid code was recorded on the
immediately-following fixation row `2*i + 1`; in particular a participant
pressing only during the fixation after the `REPEAT` of image `A` is
classified as a `target_hit` for `A`. -/
theorem claim5_fixation_consolidation :
    (∀ (cfg : CrtConfig) (df : List TrialRow) (i : Nat) (r1 r2 : TrialRow),
      df.get? (2 * i) = some r1 → df.get? (2 * i + 1) = some r2 →
      (crtKeypress cfg df).get? i
        = some (respValid cfg.valid_response r1.response
            || (cfg.consolidate_fixation && respValid cfg.valid_response r2.response)))
    ∧ (process_crt defaultCrtConfig lateRepeatTable []).2 = CrtStatus.valid
    ∧ (getIm (process_crt defaultCrtConfig lateRepeatTable []).1 "A").target_hit = 1 := by
  refine ⟨?_, by with_unfolding_all decide, by with_unfolding_all decide⟩
  intro cfg df i r1 r2 h1 h2
  have hmap1 : (rawPresses cfg.valid_response df).get? (2 * i)
      = some (respValid cfg.valid_response r1.response) := by
    rw [rawPresses, List.get?_map, h1]
    rfl
  have hmap2 : (rawPresses cfg.valid_response df).get? (2 * i + 1)
      = some (respValid cfg.valid_response r2.response) := by
    rw [rawPresses, List.get?_map, h2]
    rfl
  rw [crtKeypress]
  cases hc : cfg.consolidate_fixation
  · rw [if_neg Bool.false_ne_true]
    rw [everyOther_get?, hmap1]
    simp
  · rw [if_pos rfl]
    rw [List.get?_zipWith', everyOther_get?, everyOtherOdd_get?, hmap1, hmap2]
    simp

/-- Witness for C5 at a concrete index: on-image trial `1` of the
late-press participant (a `REPEAT` with no press, followed by a fixation
with a valid press) counts as responded. -/
theorem claim5_witness :
    (crtKeypress defaultCrtConfig lateRepeatTable).get? 1 = some true := by
  have h := claim5_fixation_consolidation.1 defaultCrtConfig lateRepeatTable 1
    ⟨"REPEAT", none, "A"⟩ ⟨"FIXATION", some "R", "fix"⟩ rfl rfl
  rw [h]
  rfl

/-- Counterexample for C6: a participant whose raw sequence passes every
mandatory invariant of `validate_data` (a single `TARGET` that is never
repeated), whose trial table passes both exclusion gates (`Valid` status),
and whose classification makes the finalize assertions fire — the emission
step aborts (`none`), because `n_participants_target = 1` while
`target_hit + target_miss = 0`. -/
theorem claim6_counterexample :
    validate_data ["A", "fix"] ["1", "0"] ["", ""] ["", ""] emptyAttnConfig = true
    ∧ ((build_trial_df ["A", "fix"] ["1", "0"] ["", ""] ["", ""] 1 1).getD []).map toTrialRow
        = loneTargetTable
    ∧ (process_crt defaultCrtConfig loneTargetTable []).2 = CrtStatus.valid
    ∧ convert_crt_image_level_results_to_df (metricsFold defaultCrtConfig [loneTargetTable])
        = none := by
  refine ⟨by decide, by with_unfolding_all decide, by with_unfolding_all decide,
    by with_unfolding_all decide⟩

/-- C6 as amended: over any cohort whose classified trial streams use only
the four known types and present every image as `TARGET` exactly as often
as `REPEAT`, the folded counters satisfy
`n_participants_target = target_cr + target_fa = target_hit + target_miss`
and `n_participants_filler = filler_cr + filler_fa` for every image, the
pre-emission assertions all pass, and the finalize step emits a table. -/
theorem claim6_amended_invariants (cfg : CrtConfig) (tables : List (List TrialRow))
    (h : ∀ tb ∈ tables, allKnownTrials (crtTrials cfg tb) = true
      ∧ balancedTrials (crtTrials cfg tb) = true) :
    (∀ im, trialConsistent (getIm (metricsFold cfg tables) im) = true)
    ∧ checkAsserts (sortByImage (metricsFold cfg tables)) = true
    ∧ (convert_crt_image_level_results_to_df (metricsFold cfg tables)).isSome = true := by
  have hres := metricsFoldAux_invariant cfg tables []
    (by simp [KeysNodup]) (fun im => rfl) h
  rw [metricsFold]
  obtain ⟨hn, hc⟩ := hres
  have hchk := checkAsserts_of_getIm _ hn hc
  refine ⟨hc, hchk, ?_⟩
  rw [convert_crt_image_level_results_to_df]
  simp only [hchk, if_true]
  rfl

/-- Witness for C6 (amended): a one-participant cohort with a balanced
target/repeat pair yields a finalized table. -/
theorem claim6_witness :
    (convert_crt_image_level_results_to_df
      (metricsFold defaultCrtConfig [pairedTargetTable])).isSome = true :=
  (claim6_amended_invariants defaultCrtConfig [pairedTargetTable]
    (by with_unfolding_all decide)).2.2

/-- C7: building the canonical trial table from a raw sequence whose type
codes are all known and whose four columns have equal lengths succeeds, and
re-deriving the image sequence (from `stim_file`), the type-code sequence
(inverting `IMTYPE_DICT` on `trial_type`) and keypress presence (from the
null response marker) reproduces the raw sequence exactly. -/
theorem claim7_roundtrip (imseq imtypeseq kps rts : List String) (stim_time isi : ℚ)
    (h1 : imseq.length = imtypeseq.length) (h2 : kps.length = imtypeseq.length)
    (h3 : rts.length = imtypeseq.length)
    (hcodes : (mapOpt IMTYPE_DICT imtypeseq).isSome = true) :
    (build_trial_df imseq imtypeseq kps rts stim_time isi).isSome = true
    ∧ ((build_trial_df imseq imtypeseq kps rts stim_time isi).getD []).map
        (fun r => r.stim_file) = imseq
    ∧ ((build_trial_df imseq imtypeseq kps rts stim_time isi).getD []).map
        (fun r => IMTYPE_INV r.trial_type) = imtypeseq.map some
    ∧ ((build_trial_df imseq imtypeseq kps rts stim_time isi).getD []).map
        (fun r => r.response.isSome) = kps.map (fun k => !(k == "")) := by
  obtain ⟨names, hn⟩ := Option.isSome_iff_exists.mp hcodes
  obtain ⟨hinv, hlen⟩ := mapOpt_inv imtypeseq names hn
  have hcond : ((imseq.length == imtypeseq.length) &&
      (kps.length == imtypeseq.length) && (rts.length == imtypeseq.length)) = true := by
    simp [h1, h2, h3]
  simp only [build_trial_df, hn, hcond, if_true]
  obtain ⟨m1, m2, m3⟩ := assembleRows_maps names
    (onsetsDurations imtypeseq stim_time isi 0) kps rts imseq
    (by rw [onsetsDurations_length]; omega)
    (by omega) (by omega) (by omega)
  refine ⟨rfl, ?_, ?_, ?_⟩
  · simpa using m1
  · simp only [Option.getD_some]
    rw [show (fun r : CanonicalTrial => IMTYPE_INV r.trial_type)
        = IMTYPE_INV ∘ (fun r : CanonicalTrial => r.trial_type) from rfl,
      ← List.map_map, m2, hinv]
  · simpa using m3

/-- Witness for C7: the two-trial raw record round-trips, recovering the
type codes and the press-presence pattern. -/
theorem claim7_witness :
    ((build_trial_df ["A", "fix"] ["1", "0"] ["R", ""] ["512", ""] 1 2).getD []).map
        (fun r => IMTYPE_INV r.trial_type) = [some "1", some "0"]
    ∧ ((build_trial_df ["A", "fix"] ["1", "0"] ["R", ""] ["512", ""] 1 2).getD []).map
        (fun r => r.response.isSome) = [true, false] := by
  obtain ⟨-, -, m2, m3⟩ := claim7_roundtrip ["A", "fix"] ["1", "0"] ["R", ""] ["512", ""]
    1 2 rfl rfl rfl (by decide)
  constructor
  · rw [m2]
    rfl
  · rw [m3]
    rfl

/-- C8: when the counters reach the finalize step consistently, the step
emits a table (no crash), and an image with zero target exposures carries
the explicit undefined marker (the `none` modelling pandas' NaN cell) in
all three rate columns of its emitted row, rather than a silent zero. -/
theorem claim8_undefined_marker (res : ImageMap) (m : String) (c : ImCounters)
    (hA : checkAsserts (sortByImage res) = true)
    (hm : (m, c) ∈ res) (h0 : c.n_participants_target = 0) :
    (convert_crt_image_level_results_to_df res).isSome = true
    ∧ mkMetricsRow (m, c) ∈ (convert_crt_image_level_results_to_df res).getD []
    ∧ (mkMetricsRow (m, c)).target_hr = none
    ∧ (mkMetricsRow (m, c)).target_far = none
    ∧ (mkMetricsRow (m, c)).target_crr = none
    ∧ (mkMetricsRow (m, c)).n_participants_target = 0 := by
  have hsorted : (m, c) ∈ sortByImage res := (List.mem_insertionSort _).mpr hm
  have hconv : convert_crt_image_level_results_to_df res
      = some ((sortByImage res).map mkMetricsRow) := by
    rw [convert_crt_image_level_results_to_df]
    simp only [hA, if_true]
  have hcons := List.all_eq_true.mp hA _ hsorted
  simp only [trialConsistent, Bool.and_eq_true, beq_iff_eq] at hcons
  obtain ⟨⟨e1, e2⟩, e3⟩ := hcons
  have hhm : c.target_hit + c.target_miss = 0 := by omega
  have hfa : c.target_fa + c.target_cr = 0 := by omega
  refine ⟨by rw [hconv]; rfl, ?_, ?_, ?_, ?_, h0⟩
  · rw [hconv]
    simp only [Option.getD_some]
    exact List.mem_map_of_mem _ hsorted
  · simp [mkMetricsRow, hhm, rateOrNaN]
  · simp [mkMetricsRow, hfa, rateOrNaN]
  · simp [mkMetricsRow, hhm, hfa, rateOrNaN, optSub]

/-- Witness for C8: a map holding one never-exposed image finalizes into a
row whose rate cells are all the undefined marker. -/
theorem claim8_witness :
    (convert_crt_image_level_results_to_df [("A", initCounters)]).isSome = true
    ∧ (mkMetricsRow ("A", initCounters)).target_hr = none
    ∧ (mkMetricsRow ("A", initCounters)).target_crr = none := by
  obtain ⟨w1, -, w3, -, w5, -⟩ := claim8_undefined_marker [("A", initCounters)] "A"
    initCounters (by decide) (by decide) rfl
  exact ⟨w1, w3, w5⟩

/-- Counterexample for C9: a cohort in which the first raw record violates
the repeat-follows-target invariant and the second is fully valid; the
`02_to_bids.py` loop has no per-participant exception handling, so the run
aborts at row `0` with no output — the valid second participant is never
processed, contradicting the claim that a ValidationError is fatal only for
the offending participant's record. -/
theorem claim9_counterexample :
    validate_data badRecord.imseq badRecord.imtypeseq badRecord.keyPressSequence
        badRecord.RTSequence emptyAttnConfig = false
    ∧ validate_data goodRecord.imseq goodRecord.imtypeseq goodRecord.keyPressSequence
        goodRecord.RTSequence emptyAttnConfig = true
    ∧ bidsMain emptyAttnConfig 1 1 [badRecord, goodRecord] = Except.error 0 := by
  refine ⟨by decide, by decide, by with_unfolding_all rfl⟩

/-- C9 as amended: in the BIDS-conversion step a validation failure aborts
the whole run at the first offending record (later records are not
processed); only the metrics step catches per-participant exceptions, where
every table of the cohort receives exactly one status and the loop never
aborts. -/
theorem claim9_amended_error_boundary :
    (∀ (cfg : AttnConfig) (st isi : ℚ) (pre : List RawRecord) (bad : RawRecord)
        (post : List RawRecord),
      (∀ r ∈ pre,
        validate_data r.imseq r.imtypeseq r.keyPressSequence r.RTSequence cfg = true
        ∧ (build_trial_df r.imseq r.imtypeseq r.keyPressSequence r.RTSequence st isi).isSome
            = true) →
      validate_data bad.imseq bad.imtypeseq bad.keyPressSequence bad.RTSequence cfg = false →
      bidsMain cfg st isi (pre ++ bad :: post) = Except.error pre.length)
    ∧ (∀ (cfg : CrtConfig) (tables : List (List TrialRow)),
        (metricsMain cfg tables).2.length = tables.length) := by
  constructor
  · intro cfg st isi pre bad post hpre hbad
    have h := bidsMainAux_error_at cfg st isi pre bad post 0 hpre hbad
    rw [bidsMain, h]
    simp
  · intro cfg tables
    have h := metricsMainAux_length cfg tables ([], [])
    rw [metricsMain, h]
    simp

/-- Witness for C9 (amended): with a valid record first, the conversion
run still aborts at the bad record's index; the metrics loop over two
tables (one of them gate-excluded) yields exactly two statuses. -/
theorem claim9_witness :
    bidsMain emptyAttnConfig 1 1 [goodRecord, badRecord] = Except.error 1
    ∧ (metricsMain defaultCrtConfig [loneTargetTable, fillerPair true]).2.length = 2 := by
  constructor
  · exact claim9_amended_error_boundary.1 emptyAttnConfig 1 1 [goodRecord] badRecord []
      (by with_unfolding_all decide) (by decide)
  · exact claim9_amended_error_boundary.2 defaultCrtConfig [loneTargetTable, fillerPair true]
